import Mathlib

/-!
Verification development for the OBSCURA privacy settlement/custody programs.

The development shallowly embeds three on-chain programs:
* the settlement engine (root rotation, Merkle proof settlement, executor set),
* the custody vault (native/token deposit and withdrawal, pause, settlement delegate),
* the privacy-claim vault (nullifier based claims with a relayer).

Machine integers are modelled as `Nat` with explicit `2 ^ 64` bounds where the
source uses checked `u64` arithmetic.  The keccak hash is an external primitive of
the platform, so every definition that hashes takes an abstract hash function
`K : Bytes → Bytes` as a parameter.  An instruction is a function from the
pre-state (plus its arguments and the clock) to `Except Error State`; an `error`
result models the transactional rollback of the hosting chain, so no state
component survives a failed instruction.  Anchor account constraints (`has_one`,
`init`-based replay protection, signer constraints) run before the instruction
body and are embedded as the leading checks of each function.
-/

namespace ObscuraVerify

abbrev Byte := Fin 256
abbrev Bytes := List Byte
abbrev Pubkey := Nat

/-- `u64::MAX + 1`. -/
def U64 : Nat := 2 ^ 64

/-- The all-zero 32-byte array `[0u8; 32]`. -/
def zero32 : Bytes := List.replicate 32 (0 : Byte)

/-! ## Merkle verifier (sip-settlement/src/instructions.rs) -/

/-- `hash_pair`: hash two nodes with domain separation, `data[0] = 0x01`,
`data[1..33] = left`, `data[33..65] = right`, then keccak (abstract `K`). -/
def hash_pair (K : Bytes → Bytes) (left right : Bytes) : Bytes :=
  K ((1 : Byte) :: (left ++ right))

/-- The loop body of `verify_merkle_proof`: fold over the siblings, keeping the
running hash and the mutable `index` (`index & 1` selects the side, `index >>= 1`
afterwards; on `u64` these agree with `% 2` and `/ 2` on `Nat`). -/
def merkleFold (K : Bytes → Bytes) : Bytes → List Bytes → Nat → Bytes
  | h, [], _ => h
  | h, sibling :: rest, index =>
    if index % 2 = 1 then merkleFold K (hash_pair K sibling h) rest (index / 2)
    else merkleFold K (hash_pair K h sibling) rest (index / 2)

/-- `verify_merkle_proof(leaf, proof, index, root)`. -/
def verify_merkle_proof (K : Bytes → Bytes) (leaf : Bytes) (proof : List Bytes)
    (index : Nat) (root : Bytes) : Bool :=
  merkleFold K leaf proof index == root

/-- Modelled from the spec (for the refinement claim about the verifier): one
step of the documented fold, `hash = H(sibling ‖ hash)` when the index is odd,
`hash = H(hash ‖ sibling)` when even, with `H` prepending the tag byte 1, then
the index is halved. -/
def specMerkleStep (K : Bytes → Bytes) (p : Bytes × Nat) (sibling : Bytes) :
    Bytes × Nat :=
  if p.2 % 2 = 1 then (K ((1 : Byte) :: (sibling ++ p.1)), p.2 / 2)
  else (K ((1 : Byte) :: (p.1 ++ sibling)), p.2 / 2)

/-- Modelled from the spec: the fold starts at the leaf and must end at the root. -/
def specMerkleVerify (K : Bytes → Bytes) (leaf : Bytes) (proof : List Bytes)
    (index : Nat) (root : Bytes) : Prop :=
  (proof.foldl (specMerkleStep K) (leaf, index)).1 = root

/-! ## Settlement program state (sip-settlement/src/state.rs, error.rs) -/

/-- `MAX_EXECUTORS`. -/
def MAX_EXECUTORS : Nat := 10

/-- `MAX_PROOF_LENGTH`. -/
def MAX_PROOF_LENGTH : Nat := 32

/-- `SipError` (sip-settlement/src/error.rs).  `Unauthorized` also stands for the
failure of an Anchor `has_one = authority` account constraint, which the spec
reports as an authorization error. -/
inductive SipError where
  | Unauthorized
  | InvalidProof
  | CommitmentAlreadyUsed
  | InvalidRoot
  | MaxExecutorsReached
  | ExecutorNotFound
  | ExecutorAlreadyExists
  | ProofTooLong
  | EmptyProof
  | InvalidPendingAuthority
  | NoPendingTransfer
  deriving DecidableEq, Repr

/-- `BatchRoot` account: one immutable record per published batch. -/
structure BatchRoot where
  batch_id : Nat
  root : Bytes
  created_at : Int
  executor : Pubkey
  deriving DecidableEq, Repr

/-- `UsedCommitment` account of the settlement program (replay protection). -/
structure SettledCommitment where
  commitment : Bytes
  batch_id : Nat
  settled_at : Int
  executor : Pubkey
  deriving DecidableEq, Repr

/-- `SettlementState` account, together with the per-deployment collections of
`UsedCommitment` and `BatchRoot` PDA accounts (each keyed by its seed: the
commitment bytes, respectively the batch id). -/
structure SettlementState where
  authority : Pubkey
  pending_authority : Pubkey
  current_root : Bytes
  batch_id : Nat
  executor_count : Nat
  executors : Fin 10 → Pubkey
  usedCommitments : List SettledCommitment
  batchRoots : List BatchRoot
  deriving DecidableEq

/-- Array read `executors[i]` (indices are always `< 10` on the paths the
program reaches; out of range reads return the default key). -/
def exAt (s : SettlementState) (i : Nat) : Pubkey :=
  if h : i < 10 then s.executors ⟨i, h⟩ else 0

/-- `SettlementState::is_executor`: the authority, or any of the first
`executor_count` entries of the executor array. -/
def is_executor (s : SettlementState) (pk : Pubkey) : Bool :=
  pk == s.authority ||
    (List.range s.executor_count).any (fun i => exAt s i == pk)

/-- `initialize` of the settlement program (authority := the signer, everything
else zeroed). -/
def initSettlement (authority : Pubkey) : SettlementState where
  authority := authority
  pending_authority := 0
  current_root := zero32
  batch_id := 0
  executor_count := 0
  executors := fun _ => 0
  usedCommitments := []
  batchRoots := []

/-! ## Settlement program instructions (sip-settlement/src/instructions.rs) -/

/-- `update_root(new_root)`: executor gated, rejects the zero root, bumps the
batch id, replaces the current root and creates the `BatchRoot` record. -/
def update_root (s : SettlementState) (executor : Pubkey) (new_root : Bytes)
    (now : Int) : Except SipError SettlementState :=
  if ¬ is_executor s executor then .error .Unauthorized
  else if new_root = zero32 then .error .InvalidRoot
  else .ok { s with
    batch_id := s.batch_id + 1
    current_root := new_root
    batchRoots := s.batchRoots ++ [⟨s.batch_id + 1, new_root, now, executor⟩] }

/-- `settle(commitment, proof, leaf_index)`.  The `init` of the `UsedCommitment`
account at the seed derived from the commitment runs first and fails when a
record for the commitment already exists (replay protection); the handler then
checks the proof bounds, verifies the Merkle proof and stores the record. -/
def settle (K : Bytes → Bytes) (s : SettlementState) (payer : Pubkey)
    (commitment : Bytes) (proof : List Bytes) (leaf_index : Nat) (now : Int) :
    Except SipError SettlementState :=
  if s.usedCommitments.any (fun u => u.commitment == commitment) then
    .error .CommitmentAlreadyUsed
  else if proof.isEmpty then .error .EmptyProof
  else if proof.length > MAX_PROOF_LENGTH then .error .ProofTooLong
  else if verify_merkle_proof K commitment proof leaf_index s.current_root then
    .ok { s with usedCommitments :=
      s.usedCommitments ++ [⟨commitment, s.batch_id, now, payer⟩] }
  else .error .InvalidProof

/-- The membership loop of `add_executor`: some `executors[i] == executor` with
`i < executor_count`. -/
def memExecutors (s : SettlementState) (executor : Pubkey) : Bool :=
  (List.range s.executor_count).any (fun i => exAt s i == executor)

/-- `add_executor(executor)`: authority gated (`has_one`), rejects a present
identity, then rejects a full set, then appends at index `executor_count`. -/
def add_executor (s : SettlementState) (caller executor : Pubkey) :
    Except SipError SettlementState :=
  if caller ≠ s.authority then .error .Unauthorized
  else if memExecutors s executor then .error .ExecutorAlreadyExists
  else if s.executor_count < MAX_EXECUTORS then
    .ok { s with
      executors := fun i => if i.val = s.executor_count then executor else s.executors i
      executor_count := s.executor_count + 1 }
  else .error .MaxExecutorsReached

/-- The search loop of `remove_executor`: first index `i < executor_count` with
`executors[i] == executor`. -/
def findExecIdx (s : SettlementState) (executor : Pubkey) : Option Nat :=
  (List.range s.executor_count).find? (fun i => exAt s i == executor)

/-- `remove_executor(executor)`: authority gated (`has_one`); swaps the found
entry with the last one, zeroes the last slot, decrements the count. -/
def remove_executor (s : SettlementState) (caller executor : Pubkey) :
    Except SipError SettlementState :=
  if caller ≠ s.authority then .error .Unauthorized
  else
    match findExecIdx s executor with
    | none => .error .ExecutorNotFound
    | some idx =>
      let last := s.executor_count - 1
      let ex1 : Fin 10 → Pubkey :=
        if idx ≠ last then
          fun i => if i.val = idx then exAt s last else s.executors i
        else s.executors
      .ok { s with
        executors := fun i => if i.val = last then 0 else ex1 i
        executor_count := last }

/-! ## Custody vault state (sip-vault/src/state.rs, error.rs) -/

/-- `VaultError` (sip-vault/src/error.rs).  `Unauthorized` also stands for the
failure of an Anchor `has_one = authority` account constraint. -/
inductive VaultError where
  | Unauthorized
  | VaultPaused
  | CommitmentAlreadyUsed
  | InsufficientBalance
  | InvalidAmount
  | InvalidRecipient
  | NoPendingTransfer
  | InvalidPendingAuthority
  | Overflow
  | InvalidCommitment
  deriving DecidableEq, Repr

/-- `UsedCommitment` account of the vault program (replay protection). -/
structure UsedVaultCommitment where
  commitment : Bytes
  used_at : Int
  executor : Pubkey
  amount : Nat
  recipient : Pubkey
  deriving DecidableEq, Repr

/-- `DepositRecord` account. -/
structure DepositRecord where
  commitment : Bytes
  depositor : Pubkey
  amount : Nat
  token_mint : Pubkey
  deposited_at : Int
  nonce : Nat
  deriving DecidableEq, Repr

/-- `VaultState` account together with the per-deployment collections of
`UsedCommitment` (keyed by the commitment bytes) and `DepositRecord` (keyed by
the deposit nonce) PDA accounts. -/
structure VaultState where
  authority : Pubkey
  pending_authority : Pubkey
  settlement : Pubkey
  sol_balance : Nat
  deposit_nonce : Nat
  withdrawal_nonce : Nat
  paused : Bool
  used : List UsedVaultCommitment
  deposits : List DepositRecord
  deriving DecidableEq, Repr

/-- `VaultState::is_authorized`: the authority or the settlement delegate. -/
def is_authorized (s : VaultState) (pk : Pubkey) : Bool :=
  pk == s.authority || pk == s.settlement

/-- `initialize` of the vault program (settlement delegate starts as the
authority). -/
def initVault (authority : Pubkey) : VaultState where
  authority := authority
  pending_authority := 0
  settlement := authority
  sol_balance := 0
  deposit_nonce := 0
  withdrawal_nonce := 0
  paused := false
  used := []
  deposits := []

/-- `u64::checked_add`. -/
def checkedAdd (a b : Nat) : Option Nat :=
  if a + b < U64 then some (a + b) else none

/-- `u64::checked_sub`. -/
def checkedSub (a b : Nat) : Option Nat :=
  if b ≤ a then some (a - b) else none

/-! ## Custody vault instructions (sip-vault/src/instructions.rs) -/

/-- Byte encoding of a 32-byte `Pubkey` / little-endian machine integer:
`width` bytes, least significant first. -/
def natLeBytes : Nat → Nat → Bytes
  | 0, _ => []
  | w + 1, v => (⟨v % 256, by omega⟩ : Byte) :: natLeBytes w (v / 256)

/-- `Pubkey::as_ref()`: the 32 raw bytes of the key (keys are modelled as
naturals below `2 ^ 256`, serialized little-endian). -/
def pkBytes (p : Pubkey) : Bytes := natLeBytes 32 p

/-- `u64::to_le_bytes`. -/
def u64le (v : Nat) : Bytes := natLeBytes 8 v

/-- `i64::to_le_bytes` (two's complement little-endian). -/
def i64le (t : Int) : Bytes := natLeBytes 8 ((t % (2 ^ 64 : Int)).toNat)

/-- `b"SIP_DEPOSIT"`. -/
def tagSIPDEPOSIT : Bytes :=
  [83, 73, 80, 95, 68, 69, 80, 79, 83, 73, 84]

/-- The byte string hashed by `compute_deposit_commitment`. -/
def depositHashInput (depositor : Pubkey) (amount : Nat) (token_mint : Pubkey)
    (nonce : Nat) (timestamp : Int) : Bytes :=
  tagSIPDEPOSIT ++ pkBytes depositor ++ u64le amount ++ pkBytes token_mint ++
    u64le nonce ++ i64le timestamp

/-- `compute_deposit_commitment(depositor, amount, token_mint, nonce, timestamp)`. -/
def compute_deposit_commitment (K : Bytes → Bytes) (depositor : Pubkey)
    (amount : Nat) (token_mint : Pubkey) (nonce : Nat) (timestamp : Int) : Bytes :=
  K (depositHashInput depositor amount token_mint nonce timestamp)

/-- `deposit_native(amount)`.  The SOL transfer from the depositor to the vault
PDA is the external transfer capability; the instruction then bumps the nonce,
adds to the tracked balance with `checked_add` and stores the `DepositRecord`
under the program-computed commitment.  (In the source the nonce increment
precedes `checked_add`; a failure rolls the whole transaction back, so the
`error` result carries no partial state.) -/
def deposit_native (K : Bytes → Bytes) (s : VaultState) (depositor : Pubkey)
    (amount : Nat) (now : Int) : Except VaultError VaultState :=
  if s.paused then .error .VaultPaused
  else if ¬ amount > 0 then .error .InvalidAmount
  else
    match checkedAdd s.sol_balance amount with
    | none => .error .Overflow
    | some balance =>
      let nonce := s.deposit_nonce + 1
      let c := compute_deposit_commitment K depositor amount 0 nonce now
      .ok { s with
        deposit_nonce := nonce
        sol_balance := balance
        deposits := s.deposits ++ [⟨c, depositor, amount, 0, now, nonce⟩] }

/-- `deposit_token(amount)`: like the native deposit but moving SPL tokens via
the external token program; no tracked balance is touched. -/
def deposit_token (K : Bytes → Bytes) (s : VaultState) (depositor : Pubkey)
    (amount : Nat) (mint : Pubkey) (now : Int) : Except VaultError VaultState :=
  if s.paused then .error .VaultPaused
  else if ¬ amount > 0 then .error .InvalidAmount
  else
    let nonce := s.deposit_nonce + 1
    let c := compute_deposit_commitment K depositor amount mint nonce now
    .ok { s with
      deposit_nonce := nonce
      deposits := s.deposits ++ [⟨c, depositor, amount, mint, now, nonce⟩] }

/-- `withdraw_native(commitment, amount)`.  The `init` of the `UsedCommitment`
account (replay protection) runs first; the handler checks authorization,
pause, amount and the tracked balance, moves the lamports (external), then
subtracts with `checked_sub` and records the used commitment. -/
def withdraw_native (s : VaultState) (executor : Pubkey) (commitment : Bytes)
    (amount : Nat) (recipient : Pubkey) (now : Int) :
    Except VaultError VaultState :=
  if s.used.any (fun u => u.commitment == commitment) then
    .error .CommitmentAlreadyUsed
  else if ¬ is_authorized s executor then .error .Unauthorized
  else if s.paused then .error .VaultPaused
  else if ¬ amount > 0 then .error .InvalidAmount
  else if ¬ s.sol_balance ≥ amount then .error .InsufficientBalance
  else
    match checkedSub s.sol_balance amount with
    | none => .error .Overflow
    | some balance =>
      .ok { s with
        sol_balance := balance
        withdrawal_nonce := s.withdrawal_nonce + 1
        used := s.used ++ [⟨commitment, now, executor, amount, recipient⟩] }

/-- `withdraw_token(commitment, amount)`.  Replay protection and the
authorization/pause/amount checks mirror the native path, but there is no
tracked-balance check and no balance update; the SPL transfer is external. -/
def withdraw_token (s : VaultState) (executor : Pubkey) (commitment : Bytes)
    (amount : Nat) (recipient_token_account : Pubkey) (now : Int) :
    Except VaultError VaultState :=
  if s.used.any (fun u => u.commitment == commitment) then
    .error .CommitmentAlreadyUsed
  else if ¬ is_authorized s executor then .error .Unauthorized
  else if s.paused then .error .VaultPaused
  else if ¬ amount > 0 then .error .InvalidAmount
  else
    .ok { s with
      withdrawal_nonce := s.withdrawal_nonce + 1
      used := s.used ++ [⟨commitment, now, executor, amount, recipient_token_account⟩] }

/-- `set_settlement(settlement)`: authority gated (`has_one`). -/
def set_settlement (s : VaultState) (caller settlement : Pubkey) :
    Except VaultError VaultState :=
  if caller ≠ s.authority then .error .Unauthorized
  else .ok { s with settlement := settlement }

/-- `pause`: authority gated (`has_one`). -/
def pauseVault (s : VaultState) (caller : Pubkey) : Except VaultError VaultState :=
  if caller ≠ s.authority then .error .Unauthorized
  else .ok { s with paused := true }

/-- `unpause`: authority gated (`has_one`). -/
def unpauseVault (s : VaultState) (caller : Pubkey) : Except VaultError VaultState :=
  if caller ≠ s.authority then .error .Unauthorized
  else .ok { s with paused := false }

/-! ## Privacy-claim vault (obscura_vault/src/lib.rs) -/

/-- `ErrorCode` of the obscura vault. -/
inductive ObscuraError where
  | NullifierAlreadyUsed
  | Unauthorized
  | UnauthorizedRelayer
  | VaultPaused
  | ZeroAmount
  deriving DecidableEq, Repr

/-- `VaultState` of the obscura vault: note the single `last_nullifier` slot. -/
structure ObscuraState where
  authority : Pubkey
  relayer : Pubkey
  total_deposits : Nat
  total_claims : Nat
  last_commitment : Bytes
  last_nullifier : Bytes
  paused : Bool
  deriving DecidableEq, Repr

/-- `initialize` of the obscura vault (relayer starts as the authority; the
byte arrays of a fresh account are zeroed). -/
def initObscura (authority : Pubkey) : ObscuraState where
  authority := authority
  relayer := authority
  total_deposits := 0
  total_claims := 0
  last_commitment := zero32
  last_nullifier := zero32
  paused := false

/-- `DepositEvent` emitted by `deposit`. -/
structure DepositEvent where
  commitment : Bytes
  amount : Nat
  timestamp : Int
  deriving DecidableEq, Repr

/-- `deposit(amount, commitment)`: any signer; the commitment is an argument
supplied by the caller and is only echoed into the emitted event; the SOL
transfer to the vault PDA is external. -/
def obscuraDeposit (s : ObscuraState) (depositor : Pubkey) (amount : Nat)
    (commitment : Bytes) (now : Int) :
    Except ObscuraError (ObscuraState × DepositEvent) :=
  if s.paused then .error .VaultPaused
  else if ¬ amount > 0 then .error .ZeroAmount
  else .ok ({ s with total_deposits := s.total_deposits + 1 },
            ⟨commitment, amount, now⟩)

/-- `claim(amount, commitment, nullifier_hash)`: the `Claim` account struct puts
no constraint on the `claimer` signer; the handler checks pause, amount and that
the nullifier differs from the single stored `last_nullifier`, transfers
(external) and overwrites `last_nullifier`/`last_commitment`. -/
def obscuraClaim (s : ObscuraState) (claimer : Pubkey) (amount : Nat)
    (commitment nullifier_hash : Bytes) (recipient : Pubkey) :
    Except ObscuraError ObscuraState :=
  if s.paused then .error .VaultPaused
  else if ¬ amount > 0 then .error .ZeroAmount
  else if s.last_nullifier == nullifier_hash then .error .NullifierAlreadyUsed
  else .ok { s with
    total_claims := s.total_claims + 1
    last_nullifier := nullifier_hash
    last_commitment := commitment }

/-- `authority_claim(amount, commitment)`: the `AuthorityClaim` constraint
requires the signer to be the stored authority; no nullifier is read or
written. -/
def authority_claim (s : ObscuraState) (caller : Pubkey) (amount : Nat)
    (commitment : Bytes) (recipient : Pubkey) :
    Except ObscuraError ObscuraState :=
  if caller ≠ s.authority then .error .Unauthorized
  else if s.paused then .error .VaultPaused
  else if ¬ amount > 0 then .error .ZeroAmount
  else .ok { s with
    total_claims := s.total_claims + 1
    last_commitment := commitment }

/-- `relayer_claim(amount, commitment, nullifier_hash)`: the `RelayerClaim`
constraint requires the signer to be the stored relayer; otherwise the body is
that of `claim`. -/
def relayer_claim (s : ObscuraState) (caller : Pubkey) (amount : Nat)
    (commitment nullifier_hash : Bytes) (recipient : Pubkey) :
    Except ObscuraError ObscuraState :=
  if caller ≠ s.relayer then .error .UnauthorizedRelayer
  else if s.paused then .error .VaultPaused
  else if ¬ amount > 0 then .error .ZeroAmount
  else if s.last_nullifier == nullifier_hash then .error .NullifierAlreadyUsed
  else .ok { s with
    total_claims := s.total_claims + 1
    last_nullifier := nullifier_hash
    last_commitment := commitment }

/-! ## Auxiliary definitions used by the statements below -/

/-- Repeat `authority_claim` by the stored authority `n` times (sequencing the
result state of each call into the next). -/
def authorityClaimRepeat (amount : Nat) (commitment : Bytes) (recipient : Pubkey) :
    Nat → ObscuraState → Except ObscuraError ObscuraState
  | 0, s => .ok s
  | n + 1, s =>
    (authority_claim s s.authority amount commitment recipient).bind
      (authorityClaimRepeat amount commitment recipient n)

/-- One executor-set operation (claim about the executor set). -/
inductive ExecOp where
  | add (e : Pubkey)
  | remove (e : Pubkey)
  deriving DecidableEq, Repr

/-- Run one executor-set operation as the authority, keeping the old state when
the instruction fails (on the chain a failed transaction has no effect). -/
def execStep (s : SettlementState) : ExecOp → SettlementState
  | .add e =>
    match add_executor s s.authority e with
    | .ok s1 => s1
    | .error _ => s
  | .remove e =>
    match remove_executor s s.authority e with
    | .ok s1 => s1
    | .error _ => s

/-- Run a sequence of executor-set operations. -/
def execRun (s : SettlementState) (ops : List ExecOp) : SettlementState :=
  ops.foldl execStep s

/-- Executor-set invariant: the count is bounded by 10 and the first
`executor_count` entries of the array are pairwise distinct. -/
def ExecInv (s : SettlementState) : Prop :=
  s.executor_count ≤ 10 ∧
    ∀ i j : Fin 10, i.val < s.executor_count → j.val < s.executor_count →
      i ≠ j → s.executors i ≠ s.executors j

/-- A concrete non-zero 32-byte value, used as a root in concrete runs. -/
def oneRoot : Bytes := List.replicate 32 (1 : Byte)

/-- A concrete instantiation of the abstract keccak parameter for concrete
runs: the constant hash. -/
def Kconst : Bytes → Bytes := fun _ => oneRoot

/-- A settlement deployment whose current root is `oneRoot`, authority 1, no
executors. -/
def csSettle : SettlementState := { initSettlement 1 with current_root := oneRoot }

/-- Concrete nullifier `T` for the replay runs. -/
def nulT : Bytes := List.replicate 32 (2 : Byte)

/-- Concrete nullifier `U` for the replay runs. -/
def nulU : Bytes := List.replicate 32 (3 : Byte)

/-! ## Theorems -/

theorem merkleFold_eq_foldl (K : Bytes → Bytes) :
    ∀ (proof : List Bytes) (h : Bytes) (i : Nat),
      merkleFold K h proof i = (proof.foldl (specMerkleStep K) (h, i)).1 := by
  intro proof
  induction proof with
  | nil => intro h i; rfl
  | cons sibling rest ih =>
    intro h i
    by_cases hodd : i % 2 = 1
    · simp [merkleFold, List.foldl_cons, specMerkleStep, hodd, hash_pair, ih]
    · simp [merkleFold, List.foldl_cons, specMerkleStep, hodd, hash_pair, ih]

/-- Claim C5: the Merkle verifier returns true iff the documented fold — hash
starts at the leaf; for each sibling, `H(sibling ‖ hash)` when the index is odd
and `H(hash ‖ sibling)` when even, halving the index — ends at the root, where
`H` hashes the tag byte 1 followed by the two operands. -/
theorem verify_merkle_matches_spec_fold (K : Bytes → Bytes) (leaf : Bytes)
    (proof : List Bytes) (index : Nat) (root : Bytes) :
    verify_merkle_proof K leaf proof index root = true ↔
      specMerkleVerify K leaf proof index root := by
  unfold verify_merkle_proof specMerkleVerify
  rw [merkleFold_eq_foldl]
  exact beq_iff_eq

/-- Claim C6: root rotation fails `Unauthorized` for a caller that is not an
executor, fails `InvalidRoot` on the all-zero root, and otherwise increments
the batch id by exactly one, replaces the root and appends the batch-history
record (batch id, root, submitter, timestamp). -/
theorem update_root_correct (s : SettlementState) (caller : Pubkey)
    (new_root : Bytes) (now : Int) :
    (is_executor s caller = false →
      update_root s caller new_root now = .error .Unauthorized) ∧
    (is_executor s caller = true → new_root = zero32 →
      update_root s caller new_root now = .error .InvalidRoot) ∧
    (is_executor s caller = true → new_root ≠ zero32 →
      update_root s caller new_root now = .ok { s with
        batch_id := s.batch_id + 1
        current_root := new_root
        batchRoots := s.batchRoots ++ [⟨s.batch_id + 1, new_root, now, caller⟩] }) := by
  refine ⟨fun h1 => ?_, fun h1 h2 => ?_, fun h1 h2 => ?_⟩
  · simp [update_root, h1]
  · simp [update_root, h1, h2]
  · simp [update_root, h1, h2]

theorem update_root_correct_witness :
    (update_root csSettle 99 oneRoot 0 = .error .Unauthorized) ∧
    (update_root csSettle 1 zero32 0 = .error .InvalidRoot) ∧
    (update_root csSettle 1 oneRoot 0 = .ok { csSettle with
      batch_id := 1
      current_root := oneRoot
      batchRoots := [⟨1, oneRoot, 0, 1⟩] }) :=
  ⟨(update_root_correct csSettle 99 oneRoot 0).1 (by decide),
   (update_root_correct csSettle 1 zero32 0).2.1 (by decide) rfl,
   (update_root_correct csSettle 1 oneRoot 0).2.2 (by decide) (by decide)⟩

/-- Claim C8: the plain `claim` of the privacy vault performs no
caller-identity check: two invocations by distinct signers with identical
state and other inputs return the same result and post-state. -/
theorem claim_caller_independent (A B : Pubkey) (s : ObscuraState) (amount : Nat)
    (commitment nullifier_hash : Bytes) (recipient : Pubkey) :
    obscuraClaim s A amount commitment nullifier_hash recipient =
      obscuraClaim s B amount commitment nullifier_hash recipient := rfl

theorem authorityClaimRepeat_ok (amount : Nat) (commitment : Bytes)
    (recipient : Pubkey) (ha : 0 < amount) :
    ∀ (n : Nat) (s : ObscuraState), s.paused = false →
      ∃ sN, authorityClaimRepeat amount commitment recipient n s = .ok sN ∧
        sN.last_nullifier = s.last_nullifier ∧ sN.paused = false := by
  intro n
  induction n with
  | zero => intro s hp; exact ⟨s, rfl, rfl, hp⟩
  | succ n ih =>
    intro s hp
    have hstep : authority_claim s s.authority amount commitment recipient =
        .ok { s with
          total_claims := s.total_claims + 1
          last_commitment := commitment } := by
      simp [authority_claim, hp, ha]
    obtain ⟨sN, hrun, hnul, hpN⟩ :=
      ih { s with total_claims := s.total_claims + 1, last_commitment := commitment } hp
    exact ⟨sN, by simp [authorityClaimRepeat, hstep, Except.bind, hrun], hnul, hpN⟩

/-- Claim C9: `authority_claim` performs no nullifier replay check and leaves
`last_nullifier` unchanged; in any unpaused state and for any positive amount
the owner can run it, it never fails `NullifierAlreadyUsed`, and it can be
repeated arbitrarily many times with the same commitment. -/
theorem authority_claim_no_replay_check (s : ObscuraState) (amount : Nat)
    (commitment : Bytes) (recipient : Pubkey) (n : Nat)
    (hp : s.paused = false) (ha : 0 < amount) :
    (authority_claim s s.authority amount commitment recipient =
      .ok { s with
        total_claims := s.total_claims + 1
        last_commitment := commitment }) ∧
    (∀ (caller : Pubkey) (a : Nat) (c : Bytes) (r : Pubkey),
      authority_claim s caller a c r ≠ .error .NullifierAlreadyUsed) ∧
    (∃ sN, authorityClaimRepeat amount commitment recipient n s = .ok sN ∧
      sN.last_nullifier = s.last_nullifier) := by
  refine ⟨by simp [authority_claim, hp, ha], ?_, ?_⟩
  · intro caller a c r
    unfold authority_claim
    split
    · simp
    · split
      · simp
      · split <;> simp
  · obtain ⟨sN, hrun, hnul, _⟩ :=
      authorityClaimRepeat_ok amount commitment recipient ha n s hp
    exact ⟨sN, hrun, hnul⟩

theorem authority_claim_no_replay_check_witness :
    ((authority_claim (initObscura 1) 1 5 oneRoot 9 =
      .ok { initObscura 1 with total_claims := 1, last_commitment := oneRoot }) ∧
    (∀ (caller : Pubkey) (a : Nat) (c : Bytes) (r : Pubkey),
      authority_claim (initObscura 1) caller a c r ≠ .error .NullifierAlreadyUsed) ∧
    (∃ sN, authorityClaimRepeat 5 oneRoot 9 3 (initObscura 1) = .ok sN ∧
      sN.last_nullifier = (initObscura 1).last_nullifier)) :=
  authority_claim_no_replay_check (initObscura 1) 5 oneRoot 9 3 rfl (by decide)

/-- Claim C2 (failing input): in the privacy vault, consuming nullifier `T`,
then `U`, then `T` again all succeed — the third call does not fail
`NullifierAlreadyUsed` because only the single most recent nullifier is stored,
and the consumed record for `T` is overwritten by `U`. -/
theorem nullifier_replay_failing_input :
    (obscuraClaim (initObscura 1) 9 1 zero32 nulT 7).bind (fun s1 =>
      (obscuraClaim s1 9 1 zero32 nulU 7).bind (fun s2 =>
        obscuraClaim s2 9 1 zero32 nulT 7)) =
    .ok { initObscura 1 with
      total_claims := 3
      last_commitment := zero32
      last_nullifier := nulT } := rfl

/-- Claim C10 (counterexample): with tracked balance 5, an authorized,
unpaused withdrawal of 10 fails with `InsufficientBalance`, not with the
`Overflow` error the claim names for the would-wrap subtraction. -/
theorem withdraw_underflow_error_name_counterexample :
    withdraw_native { initVault 1 with sol_balance := 5 } 1 nulT 10 8 0 =
      .error .InsufficientBalance ∧
    VaultError.InsufficientBalance ≠ VaultError.Overflow :=
  ⟨rfl, by decide⟩

/-- Claim C10 (amended): the tracked SOL balance arithmetic never wraps modulo
`2 ^ 64`: deposit fails with `Overflow` when the tracked balance plus the
amount exceeds `u64::MAX` and otherwise adds exactly; the native withdrawal
rejects any amount above the tracked balance with `InsufficientBalance` before
the subtraction is reached, so its checked subtraction never fails and the
withdrawal never reports `Overflow`. -/
theorem custody_balance_never_wraps (K : Bytes → Bytes) (s : VaultState)
    (d : Pubkey) (amount : Nat) (now : Int) :
    (s.paused = false → 0 < amount → U64 ≤ s.sol_balance + amount →
      deposit_native K s d amount now = .error .Overflow) ∧
    (s.paused = false → 0 < amount → s.sol_balance + amount < U64 →
      ∃ s1, deposit_native K s d amount now = .ok s1 ∧
        s1.sol_balance = s.sol_balance + amount) ∧
    (∀ (e : Pubkey) (c : Bytes) (a : Nat) (r : Pubkey),
      s.used.any (fun u => u.commitment == c) = false →
      is_authorized s e = true → s.paused = false → 0 < a → s.sol_balance < a →
      withdraw_native s e c a r now = .error .InsufficientBalance) ∧
    (∀ (e : Pubkey) (c : Bytes) (a : Nat) (r : Pubkey),
      withdraw_native s e c a r now ≠ .error .Overflow) := by
  refine ⟨fun hp ha hov => ?_, fun hp ha hov => ?_,
    fun e c a r hf hauth hp ha hb => ?_, fun e c a r => ?_⟩
  · have hno : ¬ (s.sol_balance + amount < U64) := Nat.not_lt.mpr hov
    simp [deposit_native, hp, ha, checkedAdd, hno]
  · have heq : deposit_native K s d amount now = .ok { s with
        deposit_nonce := s.deposit_nonce + 1
        sol_balance := s.sol_balance + amount
        deposits := s.deposits ++
          [⟨compute_deposit_commitment K d amount 0 (s.deposit_nonce + 1) now,
            d, amount, 0, now, s.deposit_nonce + 1⟩] } := by
      simp [deposit_native, hp, ha, checkedAdd, hov]
    exact ⟨_, heq, rfl⟩
  · have hge : ¬ s.sol_balance ≥ a := Nat.not_le.mpr hb
    simp [withdraw_native, hf, hauth, hp, ha, hge]
  · by_cases h1 : s.used.any (fun u => u.commitment == c) = true
    · simp [withdraw_native, h1]
    · by_cases h2 : is_authorized s e = true
      · by_cases h3 : s.paused = true
        · simp [withdraw_native, h1, h2, h3]
        · by_cases h4 : 0 < a
          · by_cases h5 : s.sol_balance ≥ a
            · have hsub : checkedSub s.sol_balance a = some (s.sol_balance - a) := by
                simp [checkedSub, h5]
              simp [withdraw_native, h1, h2, h3, h4, h5, hsub]
            · simp [withdraw_native, h1, h2, h3, h4, h5]
          · simp [withdraw_native, h1, h2, h3, h4]
      · simp [withdraw_native, h1, h2]

theorem custody_balance_never_wraps_witness :
    (deposit_native Kconst { initVault 1 with sol_balance := U64 - 1 } 4 1 0 =
      .error .Overflow) ∧
    (∃ s1, deposit_native Kconst (initVault 1) 4 100 0 = .ok s1 ∧
      s1.sol_balance = 0 + 100) ∧
    (withdraw_native { initVault 1 with sol_balance := 5 } 1 nulU 6 8 0 =
      .error .InsufficientBalance) ∧
    (withdraw_native (initVault 1) 1 nulU 6 8 0 ≠ .error .Overflow) := by
  have h := custody_balance_never_wraps Kconst
    { initVault 1 with sol_balance := U64 - 1 } 4 1 0
  have h2 := custody_balance_never_wraps Kconst (initVault 1) 4 100 0
  have h3 := custody_balance_never_wraps Kconst
    { initVault 1 with sol_balance := 5 } 1 0 0
  refine ⟨h.1 rfl (by decide) ?_, h2.2.1 rfl (by decide) ?_,
    h3.2.2.1 1 nulU 6 8 ?_ ?_ rfl (by decide) ?_, h2.2.2.2 1 nulU 6 8⟩
  · show 2 ^ 64 ≤ 2 ^ 64 - 1 + 1
    norm_num
  · show 0 + 100 < 2 ^ 64
    norm_num
  · decide
  · decide
  · show 5 < 6
    decide

/-- Claim C3 (counterexample): the SPL-token withdrawal variant with tracked
balance 0 and amount 5 succeeds — there is no `InsufficientBalance` check — and
the tracked balance is left unchanged instead of being decremented. -/
theorem withdraw_token_no_balance_check :
    withdraw_token (initVault 1) 1 nulT 5 8 0 =
      .ok { initVault 1 with
        withdrawal_nonce := 1
        used := [⟨nulT, 0, 1, 5, 8⟩] } ∧
    (initVault 1).sol_balance < 5 :=
  ⟨rfl, by decide⟩

/-- Claim C3 (amended): the native withdrawal requires a fresh commitment (the
account creation fails first on a consumed one), an authorized caller (else
`Unauthorized`), the vault unpaused, `amount > 0` and tracked balance at least
the amount (else `InsufficientBalance`); on success it consumes the commitment,
decrements the tracked balance by the amount and increments the withdrawal
counter.  The token withdrawal performs the same first four checks but has no
tracked-balance requirement: it succeeds with the tracked balance untouched,
consuming the commitment and incrementing the counter (the transfer itself is
the external token program's). -/
theorem withdraw_correct (s : VaultState) (e : Pubkey) (c : Bytes) (a : Nat)
    (r : Pubkey) (now : Int) :
    (s.used.any (fun u => u.commitment == c) = true →
      withdraw_native s e c a r now = .error .CommitmentAlreadyUsed ∧
      withdraw_token s e c a r now = .error .CommitmentAlreadyUsed) ∧
    (s.used.any (fun u => u.commitment == c) = false → is_authorized s e = false →
      withdraw_native s e c a r now = .error .Unauthorized ∧
      withdraw_token s e c a r now = .error .Unauthorized) ∧
    (s.used.any (fun u => u.commitment == c) = false → is_authorized s e = true →
      s.paused = true →
      withdraw_native s e c a r now = .error .VaultPaused ∧
      withdraw_token s e c a r now = .error .VaultPaused) ∧
    (s.used.any (fun u => u.commitment == c) = false → is_authorized s e = true →
      s.paused = false → a = 0 →
      withdraw_native s e c a r now = .error .InvalidAmount ∧
      withdraw_token s e c a r now = .error .InvalidAmount) ∧
    (s.used.any (fun u => u.commitment == c) = false → is_authorized s e = true →
      s.paused = false → 0 < a → s.sol_balance < a →
      withdraw_native s e c a r now = .error .InsufficientBalance) ∧
    (s.used.any (fun u => u.commitment == c) = false → is_authorized s e = true →
      s.paused = false → 0 < a → a ≤ s.sol_balance →
      withdraw_native s e c a r now = .ok { s with
        sol_balance := s.sol_balance - a
        withdrawal_nonce := s.withdrawal_nonce + 1
        used := s.used ++ [⟨c, now, e, a, r⟩] }) ∧
    (s.used.any (fun u => u.commitment == c) = false → is_authorized s e = true →
      s.paused = false → 0 < a →
      withdraw_token s e c a r now = .ok { s with
        withdrawal_nonce := s.withdrawal_nonce + 1
        used := s.used ++ [⟨c, now, e, a, r⟩] }) := by
  refine ⟨fun h1 => ?_, fun h1 h2 => ?_, fun h1 h2 h3 => ?_, fun h1 h2 h3 h4 => ?_,
    fun h1 h2 h3 h4 h5 => ?_, fun h1 h2 h3 h4 h5 => ?_, fun h1 h2 h3 h4 => ?_⟩
  · exact ⟨by simp [withdraw_native, h1], by simp [withdraw_token, h1]⟩
  · exact ⟨by simp [withdraw_native, h1, h2], by simp [withdraw_token, h1, h2]⟩
  · exact ⟨by simp [withdraw_native, h1, h2, h3], by simp [withdraw_token, h1, h2, h3]⟩
  · exact ⟨by simp [withdraw_native, h1, h2, h3, h4], by simp [withdraw_token, h1, h2, h3, h4]⟩
  · have hge : ¬ s.sol_balance ≥ a := Nat.not_le.mpr h5
    simp [withdraw_native, h1, h2, h3, h4, hge]
  · have hsub : checkedSub s.sol_balance a = some (s.sol_balance - a) := by
      simp [checkedSub, h5]
    simp [withdraw_native, h1, h2, h3, h4, h5, hsub]
  · simp [withdraw_token, h1, h2, h3, h4]

theorem withdraw_correct_witness :
    (withdraw_native { initVault 1 with used := [⟨nulT, 0, 1, 1, 8⟩] } 1 nulT 2 8 0 =
        .error .CommitmentAlreadyUsed ∧
      withdraw_token { initVault 1 with used := [⟨nulT, 0, 1, 1, 8⟩] } 1 nulT 2 8 0 =
        .error .CommitmentAlreadyUsed) ∧
    (withdraw_native (initVault 1) 99 nulT 2 8 0 = .error .Unauthorized ∧
      withdraw_token (initVault 1) 99 nulT 2 8 0 = .error .Unauthorized) ∧
    (withdraw_native { initVault 1 with paused := true } 1 nulT 2 8 0 =
        .error .VaultPaused ∧
      withdraw_token { initVault 1 with paused := true } 1 nulT 2 8 0 =
        .error .VaultPaused) ∧
    (withdraw_native (initVault 1) 1 nulT 0 8 0 = .error .InvalidAmount ∧
      withdraw_token (initVault 1) 1 nulT 0 8 0 = .error .InvalidAmount) ∧
    (withdraw_native (initVault 1) 1 nulT 2 8 0 = .error .InsufficientBalance) ∧
    (withdraw_native { initVault 1 with sol_balance := 10 } 1 nulT 4 8 0 =
      .ok { initVault 1 with
        sol_balance := 6
        withdrawal_nonce := 1
        used := [⟨nulT, 0, 1, 4, 8⟩] }) ∧
    (withdraw_token { initVault 1 with sol_balance := 10 } 1 nulT 4 8 0 =
      .ok { initVault 1 with
        sol_balance := 10
        withdrawal_nonce := 1
        used := [⟨nulT, 0, 1, 4, 8⟩] }) := by
  refine ⟨(withdraw_correct _ 1 nulT 2 8 0).1 (by decide),
    (withdraw_correct _ 99 nulT 2 8 0).2.1 (by decide) (by decide),
    (withdraw_correct _ 1 nulT 2 8 0).2.2.1 (by decide) (by decide) rfl,
    (withdraw_correct _ 1 nulT 0 8 0).2.2.2.1 (by decide) (by decide) rfl rfl,
    (withdraw_correct _ 1 nulT 2 8 0).2.2.2.2.1 (by decide) (by decide) rfl
      (by decide) (by decide),
    ?_, ?_⟩
  · have h := (withdraw_correct { initVault 1 with sol_balance := 10 } 1 nulT 4 8 0).2.2.2.2.2.1
      (by decide) (by decide) rfl (by decide) (by decide)
    exact h
  · have h := (withdraw_correct { initVault 1 with sol_balance := 10 } 1 nulT 4 8 0).2.2.2.2.2.2
      (by decide) (by decide) rfl (by decide)
    exact h

theorem natLeBytes_length (w : Nat) : ∀ v : Nat, (natLeBytes w v).length = w := by
  induction w with
  | zero => intro v; rfl
  | succ w ih => intro v; simp [natLeBytes, ih]

theorem natLeBytes_inj (w : Nat) : ∀ v1 v2 : Nat, v1 < 256 ^ w → v2 < 256 ^ w →
    natLeBytes w v1 = natLeBytes w v2 → v1 = v2 := by
  induction w with
  | zero =>
    intro v1 v2 h1 h2 _
    simp [pow_zero] at h1 h2
    omega
  | succ w ih =>
    intro v1 v2 h1 h2 heq
    simp [natLeBytes, Fin.mk.injEq] at heq
    obtain ⟨hmod, htail⟩ := heq
    have hb1 : v1 / 256 < 256 ^ w := by
      rw [Nat.div_lt_iff_lt_mul (by norm_num)]
      calc v1 < 256 ^ (w + 1) := h1
        _ = 256 ^ w * 256 := by rw [pow_succ]
    have hb2 : v2 / 256 < 256 ^ w := by
      rw [Nat.div_lt_iff_lt_mul (by norm_num)]
      calc v2 < 256 ^ (w + 1) := h2
        _ = 256 ^ w * 256 := by rw [pow_succ]
    have hdiv := ih (v1 / 256) (v2 / 256) hb1 hb2 htail
    have e1 := Nat.div_add_mod v1 256
    have e2 := Nat.div_add_mod v2 256
    omega

theorem depositHashInput_nonce_inj (d : Pubkey) (a : Nat) (m : Pubkey) (t : Int)
    (n1 n2 : Nat) (h1 : n1 < U64) (h2 : n2 < U64) :
    depositHashInput d a m n1 t = depositHashInput d a m n2 t → n1 = n2 := by
  intro heq
  unfold depositHashInput at heq
  have hlen : (tagSIPDEPOSIT ++ pkBytes d ++ u64le a ++ pkBytes m ++ u64le n1).length =
      (tagSIPDEPOSIT ++ pkBytes d ++ u64le a ++ pkBytes m ++ u64le n2).length := by
    simp [tagSIPDEPOSIT, pkBytes, u64le, natLeBytes_length]
  have hmid := (List.append_inj heq hlen).1
  have hcanc : u64le n1 = u64le n2 := by
    rw [List.append_assoc, List.append_assoc, List.append_assoc,
      List.append_assoc, List.append_assoc, List.append_assoc] at hmid
    exact List.append_cancel_left (List.append_cancel_left
      (List.append_cancel_left (List.append_cancel_left hmid)))
  have h256 : (256 : Nat) ^ 8 = U64 := by norm_num [U64]
  exact natLeBytes_inj 8 n1 n2 (h256 ▸ h1) (h256 ▸ h2) hcanc

/-- Claim C4 (counterexample): in the privacy vault, the deposit commitment is
an argument supplied by the caller, and two successive deposits with identical
depositor, amount, asset (SOL) and timestamp — hence distinct sequence
numbers — record the very same commitment when the caller supplies the same
value. -/
theorem obscura_deposit_commitment_caller_supplied :
    (obscuraDeposit (initObscura 1) 5 100 nulT 7).bind (fun p =>
      (obscuraDeposit p.1 5 100 nulT 7).map (fun q => (p.2.commitment, q.2.commitment))) =
      .ok (nulT, nulT) ∧ nulT ≠ nulU :=
  ⟨rfl, by decide⟩

/-- Claim C4 (amended): in the custody vault, the stored deposit commitment is
program-computed as the hash of the fixed tag `SIP_DEPOSIT`, the depositor,
the little-endian amount, the asset (mint, or the default key for SOL), the
little-endian sequence number `deposit_nonce + 1` (strictly increasing per
vault) and the little-endian timestamp; two hash inputs that differ only in
the sequence number are distinct byte strings, so such deposits have distinct
commitment preimages.  The privacy-variant deposit instead records a
caller-supplied commitment. -/
theorem deposit_commitment_program_computed (K : Bytes → Bytes) (s : VaultState)
    (d : Pubkey) (a : Nat) (m : Pubkey) (now : Int)
    (hp : s.paused = false) (ha : 0 < a) (hov : s.sol_balance + a < U64) :
    (deposit_native K s d a now = .ok { s with
      deposit_nonce := s.deposit_nonce + 1
      sol_balance := s.sol_balance + a
      deposits := s.deposits ++
        [⟨compute_deposit_commitment K d a 0 (s.deposit_nonce + 1) now,
          d, a, 0, now, s.deposit_nonce + 1⟩] }) ∧
    (deposit_token K s d a m now = .ok { s with
      deposit_nonce := s.deposit_nonce + 1
      deposits := s.deposits ++
        [⟨compute_deposit_commitment K d a m (s.deposit_nonce + 1) now,
          d, a, m, now, s.deposit_nonce + 1⟩] }) ∧
    (∀ n1 n2 : Nat, ∀ t : Int, n1 < U64 → n2 < U64 → n1 ≠ n2 →
      depositHashInput d a m n1 t ≠ depositHashInput d a m n2 t) := by
  refine ⟨by simp [deposit_native, hp, ha, checkedAdd, hov], ?_, ?_⟩
  · simp [deposit_token, hp, ha]
  · intro n1 n2 t hb1 hb2 hne hcontra
    exact hne (depositHashInput_nonce_inj d a m t n1 n2 hb1 hb2 hcontra)

theorem deposit_commitment_program_computed_witness :
    (deposit_native Kconst (initVault 1) 4 100 7 = .ok { initVault 1 with
      deposit_nonce := 1
      sol_balance := 100
      deposits := [⟨compute_deposit_commitment Kconst 4 100 0 1 7, 4, 100, 0, 7, 1⟩] }) ∧
    (deposit_token Kconst (initVault 1) 4 100 55 7 = .ok { initVault 1 with
      deposit_nonce := 1
      deposits := [⟨compute_deposit_commitment Kconst 4 100 55 1 7, 4, 100, 55, 7, 1⟩] }) ∧
    (∀ n1 n2 : Nat, ∀ t : Int, n1 < U64 → n2 < U64 → n1 ≠ n2 →
      depositHashInput 4 100 55 n1 t ≠ depositHashInput 4 100 55 n2 t) :=
  deposit_commitment_program_computed Kconst (initVault 1) 4 100 55 7 rfl
    (by decide) (by decide)

/-- Claim C1 (counterexample): `settle` performs no caller-identity check — a
payer that is neither the authority nor an executor, submitting a valid proof
for a fresh commitment, succeeds instead of failing `Unauthorized`. -/
theorem settle_unauthorized_caller_succeeds :
    is_executor csSettle 99 = false ∧
    settle Kconst csSettle 99 zero32 [zero32] 0 0 =
      .ok { csSettle with usedCommitments := [⟨zero32, 0, 0, 99⟩] } :=
  ⟨by decide, rfl⟩

/-- Claim C1 (amended): root rotation, the executor-set operations, pause,
unpause, the settlement-delegate update and withdrawal (native and token, on a
fresh commitment) invoked by an identity outside the authorized set fail
`Unauthorized` regardless of the other inputs; `settle`, however, performs no
caller-identity check and never fails `Unauthorized` for any caller. -/
theorem authorization_gating :
    (∀ (s : SettlementState) (caller : Pubkey) (root : Bytes) (now : Int),
      is_executor s caller = false →
      update_root s caller root now = .error .Unauthorized) ∧
    (∀ (s : SettlementState) (caller e : Pubkey), caller ≠ s.authority →
      add_executor s caller e = .error .Unauthorized ∧
      remove_executor s caller e = .error .Unauthorized) ∧
    (∀ (s : VaultState) (caller p : Pubkey), caller ≠ s.authority →
      pauseVault s caller = .error .Unauthorized ∧
      unpauseVault s caller = .error .Unauthorized ∧
      set_settlement s caller p = .error .Unauthorized) ∧
    (∀ (s : VaultState) (e : Pubkey) (c : Bytes) (a : Nat) (r : Pubkey) (now : Int),
      s.used.any (fun u => u.commitment == c) = false → is_authorized s e = false →
      withdraw_native s e c a r now = .error .Unauthorized ∧
      withdraw_token s e c a r now = .error .Unauthorized) ∧
    (∀ (K : Bytes → Bytes) (s : SettlementState) (payer : Pubkey) (c : Bytes)
      (proof : List Bytes) (idx : Nat) (now : Int),
      settle K s payer c proof idx now ≠ .error .Unauthorized) := by
  refine ⟨fun s caller root now h => by simp [update_root, h],
    fun s caller e h => ⟨by simp [add_executor, h], by simp [remove_executor, h]⟩,
    fun s caller p h => ⟨by simp [pauseVault, h], by simp [unpauseVault, h],
      by simp [set_settlement, h]⟩,
    fun s e c a r now h1 h2 =>
      ⟨by simp [withdraw_native, h1, h2], by simp [withdraw_token, h1, h2]⟩,
    fun K s payer c proof idx now => ?_⟩
  unfold settle
  split
  · simp
  · split
    · simp
    · split
      · simp
      · split <;> simp

theorem authorization_gating_witness :
    (update_root (initSettlement 1) 99 oneRoot 0 = .error .Unauthorized) ∧
    (add_executor (initSettlement 1) 99 5 = .error .Unauthorized ∧
      remove_executor (initSettlement 1) 99 5 = .error .Unauthorized) ∧
    (pauseVault (initVault 1) 99 = .error .Unauthorized ∧
      unpauseVault (initVault 1) 99 = .error .Unauthorized ∧
      set_settlement (initVault 1) 99 5 = .error .Unauthorized) ∧
    (withdraw_native (initVault 1) 99 nulT 1 8 0 = .error .Unauthorized ∧
      withdraw_token (initVault 1) 99 nulT 1 8 0 = .error .Unauthorized) ∧
    (settle Kconst csSettle 99 zero32 [] 0 0 ≠ .error .Unauthorized) :=
  ⟨authorization_gating.1 (initSettlement 1) 99 oneRoot 0 (by decide),
   authorization_gating.2.1 (initSettlement 1) 99 5 (by decide),
   authorization_gating.2.2.1 (initVault 1) 99 5 (by decide),
   authorization_gating.2.2.2.1 (initVault 1) 99 nulT 1 8 0 (by decide) (by decide),
   authorization_gating.2.2.2.2 Kconst csSettle 99 zero32 [] 0 0⟩

theorem exAt_fin (s : SettlementState) (i : Fin 10) : exAt s i.val = s.executors i := by
  simp [exAt]

theorem memExecutors_false_iff (s : SettlementState) (e : Pubkey)
    (hc : s.executor_count ≤ 10) :
    memExecutors s e = false ↔
      ∀ i : Fin 10, i.val < s.executor_count → s.executors i ≠ e := by
  unfold memExecutors
  rw [List.any_eq_false]
  constructor
  · intro h i hi hcontra
    have hmem := h i.val (List.mem_range.mpr hi)
    rw [exAt_fin s i, hcontra] at hmem
    simp at hmem
  · intro h x hx
    have hxc : x < s.executor_count := List.mem_range.mp hx
    have hx10 : x < 10 := lt_of_lt_of_le hxc hc
    have := h ⟨x, hx10⟩ hxc
    rw [show x = (⟨x, hx10⟩ : Fin 10).val from rfl, exAt_fin]
    simpa using this

theorem findExecIdx_some (s : SettlementState) (e : Pubkey) (idx : Nat)
    (h : findExecIdx s e = some idx) : idx < s.executor_count ∧ exAt s idx = e := by
  unfold findExecIdx at h
  have h1 := List.find?_some h
  have h2 := List.mem_of_find?_eq_some h
  exact ⟨List.mem_range.mp h2, by simpa using h1⟩

theorem findExecIdx_none (s : SettlementState) (e : Pubkey)
    (h : memExecutors s e = false) : findExecIdx s e = none := by
  unfold memExecutors at h
  unfold findExecIdx
  rw [List.find?_eq_none]
  intro x hx
  have := (List.any_eq_false.mp h) x hx
  simpa using this

theorem execInv_add (s : SettlementState) (e : Pubkey) (h : ExecInv s) :
    ExecInv (execStep s (.add e)) := by
  by_cases hmem : memExecutors s e = true
  · have hstep : add_executor s s.authority e = .error .ExecutorAlreadyExists := by
      simp [add_executor, hmem]
    simpa [execStep, hstep] using h
  · have hmemf : memExecutors s e = false := by simpa using hmem
    by_cases hcap : s.executor_count < 10
    · have hstep : add_executor s s.authority e = .ok { s with
        executors := fun i => if i.val = s.executor_count then e else s.executors i
        executor_count := s.executor_count + 1 } := by
        simp [add_executor, hmemf, MAX_EXECUTORS, hcap]
      refine ⟨?_, ?_⟩ <;> simp only [execStep, hstep]
      · omega
      · intro i j hi hj hij
        show (if i.val = s.executor_count then e else s.executors i) ≠
          (if j.val = s.executor_count then e else s.executors j)
        have hi' : i.val < s.executor_count + 1 := hi
        have hj' : j.val < s.executor_count + 1 := hj
        by_cases hie : i.val = s.executor_count <;>
          by_cases hje : j.val = s.executor_count
        · exact absurd (Fin.ext (hie.trans hje.symm)) hij
        · rw [if_pos hie, if_neg hje]
          have hjc : j.val < s.executor_count := by omega
          have := (memExecutors_false_iff s e h.1).mp hmemf j hjc
          exact fun hc => this hc.symm
        · rw [if_neg hie, if_pos hje]
          have hic : i.val < s.executor_count := by omega
          exact (memExecutors_false_iff s e h.1).mp hmemf i hic
        · rw [if_neg hie, if_neg hje]
          exact h.2 i j (by omega) (by omega) hij
    · have hstep : add_executor s s.authority e = .error .MaxExecutorsReached := by
        simp [add_executor, hmemf, MAX_EXECUTORS, hcap]
      simpa [execStep, hstep] using h

theorem execInv_remove (s : SettlementState) (e : Pubkey) (h : ExecInv s) :
    ExecInv (execStep s (.remove e)) := by
  cases hfind : findExecIdx s e with
  | none =>
    have hstep : remove_executor s s.authority e = .error .ExecutorNotFound := by
      simp [remove_executor, hfind]
    simpa [execStep, hstep] using h
  | some idx =>
    obtain ⟨hidx, hval⟩ := findExecIdx_some s e idx hfind
    have hone : 1 ≤ s.executor_count := by omega
    have hstep : remove_executor s s.authority e = .ok { s with
      executors := fun i => if i.val = s.executor_count - 1 then 0 else
        (if idx ≠ s.executor_count - 1 then
          (fun i => if i.val = idx then exAt s (s.executor_count - 1) else s.executors i)
         else s.executors) i
      executor_count := s.executor_count - 1 } := by
      simp only [remove_executor, ne_eq, not_true_eq_false, if_false, hfind]
    have hc10 := h.1
    refine ⟨?_, ?_⟩ <;> simp only [execStep, hstep]
    · omega
    · intro i j hi hj hij
      show (if i.val = s.executor_count - 1 then 0 else
          (if idx ≠ s.executor_count - 1 then
            (fun k : Fin 10 => if k.val = idx then exAt s (s.executor_count - 1)
              else s.executors k)
           else s.executors) i) ≠
        (if j.val = s.executor_count - 1 then 0 else
          (if idx ≠ s.executor_count - 1 then
            (fun k : Fin 10 => if k.val = idx then exAt s (s.executor_count - 1)
              else s.executors k)
           else s.executors) j)
      have hi' : i.val < s.executor_count - 1 := hi
      have hj' : j.val < s.executor_count - 1 := hj
      have hine : ¬ i.val = s.executor_count - 1 := by omega
      have hjne : ¬ j.val = s.executor_count - 1 := by omega
      rw [if_neg hine, if_neg hjne]
      by_cases hil : idx = s.executor_count - 1
      · rw [if_neg (not_not_intro hil)]
        exact h.2 i j (by omega) (by omega) hij
      · rw [if_pos hil]
        have hlast10 : s.executor_count - 1 < 10 := by omega
        have hlastval : exAt s (s.executor_count - 1) =
            s.executors ⟨s.executor_count - 1, hlast10⟩ := by
          unfold exAt
          rw [dif_pos hlast10]
        have hlastlt : (⟨s.executor_count - 1, hlast10⟩ : Fin 10).val <
            s.executor_count := by
          show s.executor_count - 1 < s.executor_count
          omega
        show (if i.val = idx then exAt s (s.executor_count - 1) else s.executors i) ≠
          (if j.val = idx then exAt s (s.executor_count - 1) else s.executors j)
        by_cases hie : i.val = idx <;> by_cases hje : j.val = idx
        · exact absurd (Fin.ext (hie.trans hje.symm)) hij
        · rw [if_pos hie, if_neg hje, hlastval]
          refine h.2 ⟨s.executor_count - 1, hlast10⟩ j hlastlt (by omega) ?_
          intro hc
          exact hjne (congrArg Fin.val hc).symm
        · rw [if_neg hie, if_pos hje, hlastval]
          refine h.2 i ⟨s.executor_count - 1, hlast10⟩ (by omega) hlastlt ?_
          intro hc
          exact hine (congrArg Fin.val hc)
        · rw [if_neg hie, if_neg hje]
          exact h.2 i j (by omega) (by omega) hij

theorem execInv_step (s : SettlementState) (op : ExecOp) (h : ExecInv s) :
    ExecInv (execStep s op) := by
  cases op with
  | add e => exact execInv_add s e h
  | remove e => exact execInv_remove s e h

theorem execInv_run (ops : List ExecOp) :
    ∀ s : SettlementState, ExecInv s → ExecInv (execRun s ops) := by
  induction ops with
  | nil => intro s h; exact h
  | cons op rest ih =>
    intro s h
    exact ih (execStep s op) (execInv_step s op h)

/-- Claim C7: from the initialized state, any sequence of executor add/remove
operations keeps the executor count at most 10 with the first `executor_count`
array entries pairwise distinct; adding a present identity fails
`ExecutorAlreadyExists`, adding an absent one at count 10 fails
`MaxExecutorsReached`, and removing an absent identity fails
`ExecutorNotFound`. -/
theorem executor_set_bounded :
    (∀ (a : Pubkey) (ops : List ExecOp), ExecInv (execRun (initSettlement a) ops)) ∧
    (∀ (s : SettlementState) (e : Pubkey), memExecutors s e = true →
      add_executor s s.authority e = .error .ExecutorAlreadyExists) ∧
    (∀ (s : SettlementState) (e : Pubkey), memExecutors s e = false →
      s.executor_count = 10 →
      add_executor s s.authority e = .error .MaxExecutorsReached) ∧
    (∀ (s : SettlementState) (e : Pubkey), memExecutors s e = false →
      remove_executor s s.authority e = .error .ExecutorNotFound) := by
  refine ⟨fun a ops => ?_, fun s e hmem => ?_, fun s e hmem hcap => ?_,
    fun s e hmem => ?_⟩
  · refine execInv_run ops (initSettlement a) ⟨by simp [initSettlement], ?_⟩
    intro i j hi
    simp [initSettlement] at hi
  · simp [add_executor, hmem]
  · simp [add_executor, hmem, MAX_EXECUTORS, hcap]
  · simp [remove_executor, findExecIdx_none s e hmem]

theorem executor_set_bounded_witness :
    (ExecInv (execRun (initSettlement 1) [.add 5, .add 6, .remove 5, .add 7])) ∧
    (add_executor (execRun (initSettlement 1) [.add 5])
      (execRun (initSettlement 1) [.add 5]).authority 5 =
      .error .ExecutorAlreadyExists) ∧
    (add_executor (execRun (initSettlement 1)
        [.add 2, .add 3, .add 4, .add 5, .add 6, .add 7, .add 8, .add 9, .add 10, .add 11])
      (execRun (initSettlement 1)
        [.add 2, .add 3, .add 4, .add 5, .add 6, .add 7, .add 8, .add 9, .add 10, .add 11]).authority
      20 = .error .MaxExecutorsReached) ∧
    (remove_executor (initSettlement 1) (initSettlement 1).authority 7 =
      .error .ExecutorNotFound) :=
  ⟨executor_set_bounded.1 1 [.add 5, .add 6, .remove 5, .add 7],
   executor_set_bounded.2.1 (execRun (initSettlement 1) [.add 5]) 5 (by decide),
   executor_set_bounded.2.2.1 (execRun (initSettlement 1)
      [.add 2, .add 3, .add 4, .add 5, .add 6, .add 7, .add 8, .add 9, .add 10, .add 11])
      20 (by decide) (by decide),
   executor_set_bounded.2.2.2 (initSettlement 1) 7 (by decide)⟩

end ObscuraVerify
